import Mathlib

/-!
Verification of the airspace-geometry core of the `gis_misc` repository:
the Vincenty direct geodesic solver (`geodesic_calc.py`), the arc/circle
point samplers and the five shape builders (`airspace_geometry.py`),
together with the data model (`_types.py`, `ellipsoid.py`).

Python floats are modelled as real numbers; `math.sin`, `math.cos`,
`math.tan`, `math.sqrt`, `math.atan2`, `math.radians`, `math.degrees`,
the float `%` operator, `math.floor` and `math.ceil` are modelled by the
corresponding exact real operations.  The `while` loop of the solver is
embedded with an explicit fuel parameter: `VResult.fuelOut` means the
loop has not yet left its body after `fuel` iterations (the Python loop
has no iteration cap, so no fuel value is distinguished by the source).
The three loop-local variables `cos2sigma_m`, `sin_sigma`, `cos_sigma`
are initialised to `None` in the source; they are modelled by an
`Option (ℝ × ℝ × ℝ)` and `VResult.typeErr` models the `TypeError` that
Python raises when they are still `None` after the loop.

The samplers and shape builders call the solver directly, so a call
that raises `TypeError` (or never terminates) aborts them too: they are
embedded as `Option`/`Except`-valued functions in which `none` (or the
`solverCrash` error) means the Python call does not return normally,
and a list or polygon is produced only when every solver call that the
code performs returns one.
-/

namespace GisMisc

/-- `_types.GeographicCoordinates`: a NamedTuple `(lon, lat)` in decimal
degrees. -/
structure GeographicCoordinates where
  lon : ℝ
  lat : ℝ

/-- `_types.Ellipsoid`: a NamedTuple `(a, b, f)` of semi-major axis,
semi-minor axis and flattening. -/
structure Ellipsoid where
  a : ℝ
  b : ℝ
  f : ℝ

/-- `ellipsoid.WGS84`. -/
noncomputable def WGS84 : Ellipsoid :=
  ⟨6378137.0, 6356752.3141, 1 / 298.25722210088⟩

/-- `math.radians`. -/
noncomputable def radians (x : ℝ) : ℝ := x * Real.pi / 180

/-- `math.degrees`. -/
noncomputable def degrees (x : ℝ) : ℝ := x * 180 / Real.pi

/-- `math.atan2 y x`: four-quadrant arctangent with the C/Python sign
conventions (on exact reals, so the signed-zero cases of floats collapse
to the `x = 0` branch). -/
noncomputable def atan2 (y x : ℝ) : ℝ :=
  if 0 < x then Real.arctan (y / x)
  else if x < 0 then
    (if 0 ≤ y then Real.arctan (y / x) + Real.pi else Real.arctan (y / x) - Real.pi)
  else
    (if 0 < y then Real.pi / 2 else if y < 0 then -(Real.pi / 2) else 0)

/-- The Python float `%` operator: `x % m = x - m * ⌊x / m⌋` (the result
has the sign of `m`; for `m > 0` it lies in `[0, m)`). -/
noncomputable def fmod (x m : ℝ) : ℝ := x - m * ⌊x / m⌋

/-- Result of one call to `vincenty_direct_solution`.  `ok` is a normal
return; `typeErr` is the `TypeError` Python raises when the loop-local
variables are still `None` after the `while` loop; `fuelOut` means the
σ-loop had not yet terminated after the given amount of fuel. -/
inductive VResult where
  | ok (p : GeographicCoordinates)
  | typeErr
  | fuelOut

/-- Outcome of the σ-fixed-point `while` loop of
`vincenty_direct_solution`: either the exit test `|σ - σp| ≤ 1e-12`
succeeded (`done`, carrying the final `sigma` and the last values of
`(cos2sigma_m, sin_sigma, cos_sigma)`, still `none` if the body never
ran), or the fuel ran out with the loop still going. -/
inductive LoopOut where
  | done (sigma : ℝ) (trig : Option (ℝ × ℝ × ℝ))
  | fuelOut

/-- The `while fabs(sigma - sigmap) > 1e-12` loop of
`vincenty_direct_solution`, with the loop-invariant quantities
`s0 = distance / (b * A)`, `B` and `sigma1` abstracted out and an
explicit fuel bounding the number of body executions.  The exit test is
checked before the fuel, exactly as the Python loop checks its condition
before running the body. -/
noncomputable def sigmaLoop (s0 B sigma1 : ℝ) :
    ℕ → ℝ → ℝ → Option (ℝ × ℝ × ℝ) → LoopOut
  | 0, sigma, sigmap, trig =>
    if |sigma - sigmap| ≤ 1e-12 then .done sigma trig else .fuelOut
  | fuel + 1, sigma, sigmap, trig =>
    if |sigma - sigmap| ≤ 1e-12 then .done sigma trig
    else
      let cos2sigma_m := Real.cos (2 * sigma1 + sigma)
      let sin_sigma := Real.sin sigma
      let cos_sigma := Real.cos sigma
      let d_sigma := B * sin_sigma * (cos2sigma_m + B / 4 * (
            cos_sigma * (-1 + 2 * cos2sigma_m * cos2sigma_m) - B / 6 * cos2sigma_m * (
              -3 + 4 * sin_sigma * sin_sigma) * (-3 + 4 * cos2sigma_m * cos2sigma_m)))
      sigmaLoop s0 B sigma1 fuel (s0 + d_sigma) sigma
        (some (cos2sigma_m, sin_sigma, cos_sigma))

/-- `geodesic_calc.vincenty_direct_solution`, with an explicit fuel for
the σ-loop. -/
noncomputable def vincenty_direct_solution (fuel : ℕ)
    (initial_point : GeographicCoordinates)
    (initial_azimuth distance : ℝ)
    (ellipsoid : Ellipsoid) : VResult :=
  let a := ellipsoid.a
  let b := ellipsoid.b
  let f := ellipsoid.f
  let lon1 := radians initial_point.lon
  let lat1 := radians initial_point.lat
  let alpha1 := radians initial_azimuth
  let sin_alpha1 := Real.sin alpha1
  let cos_alpha1 := Real.cos alpha1
  let tan_u1 := (1 - f) * Real.tan lat1
  let cos_u1 := 1 / Real.sqrt (1 + tan_u1 * tan_u1)
  let sin_u1 := tan_u1 * cos_u1
  let sigma1 := atan2 tan_u1 (Real.cos alpha1)
  let sin_alpha := cos_u1 * sin_alpha1
  let cos_sq_alpha := 1 - sin_alpha * sin_alpha
  let u_sq := cos_sq_alpha * (a * a - b * b) / (b * b)
  let A := 1 + u_sq / 16384 * (4096 + u_sq * (-768 + u_sq * (320 - 175 * u_sq)))
  let B := u_sq / 1024 * (256 + u_sq * (-128 + u_sq * (74 - 47 * u_sq)))
  match sigmaLoop (distance / (b * A)) B sigma1 fuel (distance / (b * A)) 1 none with
  | .fuelOut => .fuelOut
  | .done _ none => .typeErr
  | .done sigma (some (cos2sigma_m, sin_sigma, cos_sigma)) =>
    let var_aux := sin_u1 * sin_sigma - cos_u1 * cos_sigma * cos_alpha1
    let lat2 := atan2 (sin_u1 * cos_sigma + cos_u1 * sin_sigma * cos_alpha1)
        ((1 - f) * Real.sqrt (sin_alpha * sin_alpha + var_aux * var_aux))
    let lamb := atan2 (sin_sigma * sin_alpha1)
        (cos_u1 * cos_sigma - sin_u1 * sin_sigma * cos_alpha1)
    let C := f / 16 * cos_sq_alpha * (4 + f * (4 - 3 * cos_sq_alpha))
    let L := lamb - (1 - C) * f * sin_alpha * (sigma + C * sin_sigma * (
        cos2sigma_m + C * cos_sigma * (-1 + 2 * cos2sigma_m * cos2sigma_m)))
    let lon2 := fmod (lon1 + L + 3 * Real.pi) (2 * Real.pi) - Real.pi
    .ok ⟨degrees lon2, degrees lat2⟩

/-- The outcome of one Python call to `vincenty_direct_solution` as its
callers observe it: `some q` when the σ-loop terminates and the function
returns `q` (by `vincenty_ok_unique` the value does not depend on which
fuel witnesses termination); `none` when no amount of fuel makes the
solver return — the call raises `TypeError` or never terminates, and in
either case no value reaches the caller. -/
noncomputable def vincenty_run (p : GeographicCoordinates) (az dist : ℝ)
    (e : Ellipsoid) : Option GeographicCoordinates :=
  letI := Classical.propDecidable (∃ q, ∃ n, vincenty_direct_solution n p az dist e = .ok q)
  if h : ∃ q, ∃ n, vincenty_direct_solution n p az dist e = .ok q then some h.choose
  else none

/-- Sequencing of a list of fallible values: `some` exactly when every
element is `some`.  Models a Python loop or comprehension that raises as
soon as one of its element computations raises — in the pure model the
overall outcome (no list produced) is the same whichever element
fails. -/
def optList {α : Type} : List (Option α) → Option (List α)
  | [] => some []
  | none :: _ => none
  | some a :: xs => (optList xs).map fun l => a :: l

/-- `airspace_geometry._central_int_angle`:
`(ceil(azimuth_to) - floor(azimuth_from)) % 360` with Python's integer
`%` (which is `Int.emod` for a positive modulus). -/
noncomputable def _central_int_angle (azimuth_from azimuth_to : ℝ) : ℤ :=
  (⌈azimuth_to⌉ - ⌊azimuth_from⌋) % 360

/-- `airspace_geometry._circle_coords`: one point per integer azimuth in
`range(360)`, at the given radius, on the default WGS84 ellipsoid; no
list is returned if any of the 360 solver calls fails to return. -/
noncomputable def _circle_coords (center : GeographicCoordinates)
    (radius : ℝ) : Option (List GeographicCoordinates) :=
  optList ((List.range 360).map fun (i : ℕ) =>
    vincenty_run center (i : ℝ) radius WGS84)

/-- `airspace_geometry._arc_coords`: the endpoint at `azimuth_from`, one
point per `i` in `range(1, angle)` at azimuth `floor(azimuth_from) + i`
(reduced by 360 when strictly above 360), then the endpoint at
`azimuth_to`; no list is returned if any of the solver calls fails to
return. -/
noncomputable def _arc_coords (center : GeographicCoordinates)
    (radius azimuth_from azimuth_to : ℝ) :
    Option (List GeographicCoordinates) :=
  match vincenty_run center azimuth_from radius WGS84,
        vincenty_run center azimuth_to radius WGS84 with
  | some arc_begin, some arc_end =>
    let angle := _central_int_angle azimuth_from azimuth_to
    let azm_ := ⌊azimuth_from⌋
    match optList ((List.range' 1 (angle.toNat - 1)).map fun (i : ℕ) =>
        let azm : ℤ := azm_ + (i : ℤ)
        let azm : ℤ := if azm > 360 then azm - 360 else azm
        vincenty_run center (azm : ℝ) radius WGS84) with
    | some interior => some ((arc_begin :: interior) ++ [arc_end])
    | none => none
  | _, _ => none

/-- A radius at which `_arc_coords center r 10 50` crashes for the
center `(0, 0)`: at latitude 0 and azimuth 30 (an interior azimuth of
the 10 → 50 arc) the solver computes `cos²α = 3/4` exactly, and this
radius equals the resulting `b * A` on WGS84, so the σ-loop's exit test
`|σ - σp| ≤ 1e-12` holds before the first iteration and the solver hits
its uninitialised loop variables (`TypeError`).  The float computation
agrees: the rounding error in `σ` is of order `1e-16`, far below the
`1e-12` tolerance. -/
noncomputable def crash_radius_30 : ℝ :=
  let u := 3 / 4 * (6378137.0 * 6378137.0 - 6356752.3141 * 6356752.3141) /
    (6356752.3141 * 6356752.3141)
  6356752.3141 * (1 + u / 16384 * (4096 + u * (-768 + u * (320 - 175 * u))))

/-- The vertex data handed to `shapely.geometry.Polygon`: a shell and a
list of holes.  shapely itself is an external library; only the boundary
sequences the repository's code constructs are modelled. -/
structure Polygon where
  shell : List GeographicCoordinates
  holes : List (List GeographicCoordinates)

/-- `airspace_geometry.circle`; `none` when the circle sampling does
not return. -/
noncomputable def circle (center : GeographicCoordinates) (radius : ℝ) :
    Option Polygon :=
  match _circle_coords center radius with
  | some coords => some ⟨coords, []⟩
  | none => none

/-- `airspace_geometry.circular_sector`: `[center]` extended with the
arc coordinates; `none` when the arc sampling does not return. -/
noncomputable def circular_sector (center : GeographicCoordinates)
    (radius azimuth_from azimuth_to : ℝ) : Option Polygon :=
  match _arc_coords center radius azimuth_from azimuth_to with
  | some arc => some ⟨center :: arc, []⟩
  | none => none

/-- `airspace_geometry.circular_segment`; `none` when the arc sampling
does not return. -/
noncomputable def circular_segment (center : GeographicCoordinates)
    (radius azimuth_from azimuth_to : ℝ) : Option Polygon :=
  match _arc_coords center radius azimuth_from azimuth_to with
  | some arc => some ⟨arc, []⟩
  | none => none

/-- Failures of `ring`/`ring_sector`.

`invalidRadiusOrdering` is modelled from the spec: the repository's
`_exceptions` module (from which `airspace_geometry.py` imports
`RadiiError`) is not under src; the spec's error taxonomy names the
invalid-radius failure `InvalidRadiusOrdering`, raised "when inner
radius is not strictly less than outer radius".  `ring` raises the
builtin `ValueError` and `ring_sector` raises `RadiiError`; both are
identified with this single spec-level error kind.

`solverCrash` is not an exception class of its own in Python: it stands
for the sampling not returning normally after the radius guard has
passed — the solver's `TypeError` escaping unhandled, or its σ-loop
never terminating; the two are not distinguished here. -/
inductive GeomError where
  | invalidRadiusOrdering
  | solverCrash

/-- `airspace_geometry.ring`: raises for `inner_radius >= outer_radius`;
otherwise samples the inner circle, then the outer circle (the source's
order), and returns the outer circle as shell with the inner circle as
the single hole — unless one of the samplings does not return. -/
noncomputable def ring (center : GeographicCoordinates)
    (inner_radius outer_radius : ℝ) : Except GeomError Polygon :=
  if inner_radius ≥ outer_radius then .error .invalidRadiusOrdering
  else
    match _circle_coords center inner_radius,
          _circle_coords center outer_radius with
    | some inner_circle, some outer_circle =>
      .ok ⟨outer_circle, [inner_circle]⟩
    | _, _ => .error .solverCrash

/-- `airspace_geometry.ring_sector`: raises for
`inner_radius >= outer_radius`; otherwise samples the outer arc, then
the inner arc (the source's order), and returns the outer arc
concatenated with the reversed inner arc, as a single ring with no hole
— unless one of the samplings does not return. -/
noncomputable def ring_sector (center : GeographicCoordinates)
    (inner_radius outer_radius azimuth_from azimuth_to : ℝ) :
    Except GeomError Polygon :=
  if inner_radius ≥ outer_radius then .error .invalidRadiusOrdering
  else
    match _arc_coords center outer_radius azimuth_from azimuth_to,
          _arc_coords center inner_radius azimuth_from azimuth_to with
    | some outer_arc, some inner_arc =>
      .ok ⟨outer_arc ++ inner_arc.reverse, []⟩
    | _, _ => .error .solverCrash

/-! ### Helper lemmas about the σ-loop and the solver -/

theorem sigmaLoop_stable (s0 B sigma1 : ℝ) (fuel : ℕ) (sigma : ℝ)
    (trig : Option (ℝ × ℝ × ℝ)) :
    sigmaLoop s0 B sigma1 fuel sigma sigma trig = .done sigma trig := by
  cases fuel <;>
    · rw [sigmaLoop]
      rw [if_pos (by norm_num)]

theorem sigmaLoop_done_mono (s0 B sigma1 : ℝ) :
    ∀ {n m : ℕ} {sigma sigmap : ℝ} {trig : Option (ℝ × ℝ × ℝ)} {s : ℝ}
      {tr : Option (ℝ × ℝ × ℝ)},
    sigmaLoop s0 B sigma1 n sigma sigmap trig = .done s tr → n ≤ m →
    sigmaLoop s0 B sigma1 m sigma sigmap trig = .done s tr := by
  intro n
  induction n with
  | zero =>
    intro m sigma sigmap trig s tr h _
    rw [sigmaLoop] at h
    by_cases hc : |sigma - sigmap| ≤ 1e-12
    · rw [if_pos hc] at h
      cases m <;> · rw [sigmaLoop]; rw [if_pos hc]; exact h
    · rw [if_neg hc] at h; exact absurd h (by simp)
  | succ n ih =>
    intro m sigma sigmap trig s tr h hnm
    rw [sigmaLoop] at h
    by_cases hc : |sigma - sigmap| ≤ 1e-12
    · rw [if_pos hc] at h
      cases m <;> · rw [sigmaLoop]; rw [if_pos hc]; exact h
    · rw [if_neg hc] at h
      cases m with
      | zero => omega
      | succ m =>
        rw [sigmaLoop, if_neg hc]
        exact ih h (by omega)

theorem sigmaLoop_done_unique (s0 B sigma1 : ℝ) {n m : ℕ}
    {sigma sigmap : ℝ} {trig : Option (ℝ × ℝ × ℝ)} {s s' : ℝ}
    {tr tr' : Option (ℝ × ℝ × ℝ)}
    (h1 : sigmaLoop s0 B sigma1 n sigma sigmap trig = .done s tr)
    (h2 : sigmaLoop s0 B sigma1 m sigma sigmap trig = .done s' tr') :
    s = s' ∧ tr = tr' := by
  rcases Nat.le_total n m with hle | hle
  · have h3 := sigmaLoop_done_mono s0 B sigma1 h1 hle
    rw [h2] at h3
    injection h3 with e1 e2
    exact ⟨e1.symm, e2.symm⟩
  · have h3 := sigmaLoop_done_mono s0 B sigma1 h2 hle
    rw [h1] at h3
    injection h3 with e1 e2
    exact ⟨e1, e2⟩

theorem vincenty_ok_unique {n m : ℕ} {p : GeographicCoordinates}
    {az dist : ℝ} {e : Ellipsoid} {q q' : GeographicCoordinates}
    (h1 : vincenty_direct_solution n p az dist e = .ok q)
    (h2 : vincenty_direct_solution m p az dist e = .ok q') : q = q' := by
  unfold vincenty_direct_solution at h1 h2
  dsimp only [] at h1 h2
  split at h1
  · exact absurd h1 (by simp)
  · exact absurd h1 (by simp)
  · split at h2
    · exact absurd h2 (by simp)
    · exact absurd h2 (by simp)
    · rename_i x1 sigma c2 ss cs hL1 x2 sigma' c2' ss' cs' hL2
      obtain ⟨hs, htr⟩ := sigmaLoop_done_unique _ _ _ hL1 hL2
      obtain ⟨e1, e2, e3⟩ : c2 = c2' ∧ ss = ss' ∧ cs = cs' := by
        simpa using htr
      injection h1 with h1'
      injection h2 with h2'
      rw [← h1', ← h2', hs, e1, e2, e3]

theorem vincenty_run_eq_some {n : ℕ} {p : GeographicCoordinates}
    {az dist : ℝ} {e : Ellipsoid} {q : GeographicCoordinates}
    (h : vincenty_direct_solution n p az dist e = .ok q) :
    vincenty_run p az dist e = some q := by
  have hex : ∃ q, ∃ n, vincenty_direct_solution n p az dist e = .ok q := ⟨q, n, h⟩
  rw [vincenty_run, dif_pos hex]
  obtain ⟨m, hm⟩ := hex.choose_spec
  rw [vincenty_ok_unique hm h]

theorem vincenty_run_eq_none {p : GeographicCoordinates} {az dist : ℝ}
    {e : Ellipsoid}
    (h : ∀ n, vincenty_direct_solution n p az dist e = .typeErr) :
    vincenty_run p az dist e = none := by
  rw [vincenty_run, dif_neg]
  rintro ⟨q, n, hn⟩
  rw [h n] at hn
  exact absurd hn (by simp)

theorem optList_length {α : Type} :
    ∀ {l : List (Option α)} {m : List α}, optList l = some m →
      m.length = l.length := by
  intro l
  induction l with
  | nil =>
    intro m h
    injection h with h'
    rw [← h']
    rfl
  | cons x xs ih =>
    intro m h
    cases x with
    | none => exact absurd h (by simp [optList])
    | some a =>
      rw [optList] at h
      cases hxs : optList xs with
      | none => rw [hxs] at h; exact absurd h (by simp)
      | some l' =>
        rw [hxs] at h
        injection h with h'
        rw [← h']
        simp [ih hxs]

theorem optList_getElem {α : Type} :
    ∀ {l : List (Option α)} {m : List α}, optList l = some m →
      ∀ (k : ℕ) (x : Option α), l[k]? = some x → m[k]? = x := by
  intro l
  induction l with
  | nil =>
    intro m h k x hk
    exact absurd hk (by simp)
  | cons y ys ih =>
    intro m h k x hk
    cases y with
    | none => exact absurd h (by simp [optList])
    | some a =>
      rw [optList] at h
      cases hys : optList ys with
      | none => rw [hys] at h; exact absurd h (by simp)
      | some l' =>
        rw [hys] at h
        injection h with h'
        subst h'
        cases k with
        | zero =>
          simp at hk
          simp [← hk]
        | succ k =>
          simp only [List.getElem?_cons_succ] at hk ⊢
          exact ih hys k x hk

theorem optList_map_some {α β : Type} (f : α → Option β) (g : α → β) :
    ∀ (l : List α), (∀ x ∈ l, f x = some (g x)) →
      optList (l.map f) = some (l.map g) := by
  intro l
  induction l with
  | nil => intro _; rfl
  | cons x xs ih =>
    intro h
    rw [List.map_cons, List.map_cons, h x (by simp), optList,
      ih fun y hy => h y (by simp [hy])]
    rfl

theorem optList_eq_none {α : Type} :
    ∀ {l : List (Option α)}, none ∈ l → optList l = none := by
  intro l
  induction l with
  | nil => intro h; exact absurd h (by simp)
  | cons x xs ih =>
    intro h
    rcases List.mem_cons.mp h with h' | h'
    · rw [← h']
      rfl
    · cases x with
      | none => rfl
      | some a =>
        rw [optList, ih h']
        rfl

theorem sigmaLoop_zero_dist (B sigma1 : ℝ) (n : ℕ) :
    sigmaLoop 0 B sigma1 (n + 1) 0 1 none =
      .done 0 (some (Real.cos (2 * sigma1), 0, 1)) := by
  rw [sigmaLoop, if_neg (by norm_num)]
  dsimp only []
  simp only [add_zero, zero_add, Real.sin_zero, Real.cos_zero, mul_zero, zero_mul]
  exact sigmaLoop_stable 0 B sigma1 n 0 (some (Real.cos (2 * sigma1), 0, 1))

/-! ### Helper lemmas about degree/radian conversion, `atan2`, `fmod` -/

theorem radians_lt_radians {x y : ℝ} (h : x < y) : radians x < radians y := by
  have hπ := Real.pi_pos
  unfold radians
  nlinarith [mul_lt_mul_of_pos_right h hπ]

theorem radians_zero : radians 0 = 0 := by unfold radians; ring

theorem radians_90 : radians 90 = Real.pi / 2 := by unfold radians; ring

theorem radians_neg90 : radians (-90) = -(Real.pi / 2) := by unfold radians; ring

theorem radians_180 : radians 180 = Real.pi := by unfold radians; ring

theorem radians_neg180 : radians (-180) = -Real.pi := by unfold radians; ring

theorem degrees_radians (x : ℝ) : degrees (radians x) = x := by
  unfold degrees radians
  field_simp

theorem degrees_neg_pi : degrees (-Real.pi) = -180 := by
  unfold degrees
  field_simp
  ring

theorem atan2_zero_pos {x : ℝ} (hx : 0 < x) : atan2 0 x = 0 := by
  rw [atan2, if_pos hx, zero_div, Real.arctan_zero]

theorem atan2_nonneg_x_bounds (y : ℝ) {x : ℝ} (hx : 0 ≤ x) :
    -(Real.pi / 2) ≤ atan2 y x ∧ atan2 y x ≤ Real.pi / 2 := by
  unfold atan2
  split_ifs with h1 h2 h3 h4 <;>
    constructor <;>
    linarith [Real.neg_pi_div_two_lt_arctan (y / x),
      Real.arctan_lt_pi_div_two (y / x), Real.pi_pos]

theorem fmod_bounds (x m : ℝ) (hm : 0 < m) : 0 ≤ fmod x m ∧ fmod x m < m := by
  unfold fmod
  have h3 : m * (x / m) = x := by field_simp
  constructor
  · have h := Int.floor_le (x / m)
    nlinarith [mul_le_mul_of_nonneg_left h hm.le]
  · have h := Int.lt_floor_add_one (x / m)
    nlinarith [mul_lt_mul_of_pos_left h hm]

theorem fmod_lon_shift (l : ℝ) (h1 : -Real.pi ≤ l) (h2 : l < Real.pi) :
    fmod (l + 3 * Real.pi) (2 * Real.pi) = l + Real.pi := by
  have hπ := Real.pi_pos
  have hfloor : ⌊(l + 3 * Real.pi) / (2 * Real.pi)⌋ = 1 := by
    rw [Int.floor_eq_iff]
    rw [le_div_iff₀ (by positivity), div_lt_iff₀ (by positivity)]
    push_cast
    constructor <;> nlinarith
  unfold fmod
  rw [hfloor]
  push_cast
  ring

theorem fmod_four_pi : fmod (4 * Real.pi) (2 * Real.pi) = 0 := by
  have hπ := Real.pi_ne_zero
  have hdiv : 4 * Real.pi / (2 * Real.pi) = 2 := by
    field_simp
    ring
  unfold fmod
  rw [hdiv]
  norm_num
  ring

/-! ### Helper lemmas: evaluating the solver -/

theorem vincenty_zero_dist_run (n : ℕ) (p : GeographicCoordinates) (az : ℝ)
    (e : Ellipsoid) (hf : e.f < 1) (hlat₁ : -90 < p.lat) (hlat₂ : p.lat < 90) :
    vincenty_direct_solution (n + 1) p az 0 e =
      .ok ⟨degrees (fmod (radians p.lon + 3 * Real.pi) (2 * Real.pi) - Real.pi),
           p.lat⟩ := by
  unfold vincenty_direct_solution
  dsimp only []
  rw [zero_div, sigmaLoop_zero_dist]
  dsimp only []
  set t := (1 - e.f) * Real.tan (radians p.lat) with ht
  set cu := 1 / Real.sqrt (1 + t * t) with hcu
  set sa1 := Real.sin (radians az) with hsa1
  set ca1 := Real.cos (radians az) with hca1
  simp only [mul_zero, zero_mul, mul_one, one_mul, add_zero, zero_add, sub_zero,
    zero_sub, neg_mul_neg]
  have hcupos : 0 < cu := by
    rw [hcu]
    exact one_div_pos.mpr (Real.sqrt_pos.mpr (by nlinarith [mul_self_nonneg t]))
  rw [atan2_zero_pos hcupos, add_zero]
  have hZ : cu * sa1 * (cu * sa1) + cu * ca1 * (cu * ca1) = cu ^ 2 := by
    have h := Real.sin_sq_add_cos_sq (radians az)
    calc cu * sa1 * (cu * sa1) + cu * ca1 * (cu * ca1)
        = cu ^ 2 * (sa1 ^ 2 + ca1 ^ 2) := by ring
      _ = cu ^ 2 := by rw [hsa1, hca1, h, mul_one]
  rw [hZ, Real.sqrt_sq hcupos.le]
  have hx : 0 < (1 - e.f) * cu := mul_pos (by linarith) hcupos
  rw [atan2, if_pos hx]
  have hdiv : t * cu / ((1 - e.f) * cu) = Real.tan (radians p.lat) := by
    rw [div_eq_iff hx.ne', ht]; ring
  have hb1 : -(Real.pi / 2) < radians p.lat := by
    have h := radians_lt_radians (show (-90 : ℝ) < p.lat from hlat₁)
    rwa [radians_neg90] at h
  have hb2 : radians p.lat < Real.pi / 2 := by
    have h := radians_lt_radians hlat₂
    rwa [radians_90] at h
  rw [hdiv, Real.arctan_tan hb1 hb2, degrees_radians]

theorem solveDirect_zero_distance (fuel : ℕ) (p : GeographicCoordinates)
    (az : ℝ) (e : Ellipsoid) (hfuel : 1 ≤ fuel) (hf : e.f < 1)
    (hlon₁ : -180 < p.lon) (hlon₂ : p.lon < 180)
    (hlat₁ : -90 < p.lat) (hlat₂ : p.lat < 90) :
    vincenty_direct_solution fuel p az 0 e = .ok p := by
  obtain ⟨n, rfl⟩ : ∃ n, fuel = n + 1 :=
    ⟨fuel - 1, (Nat.succ_pred_eq_of_pos hfuel).symm⟩
  rw [vincenty_zero_dist_run n p az e hf hlat₁ hlat₂]
  have hb1 : -Real.pi ≤ radians p.lon := by
    have h := radians_lt_radians hlon₁
    rw [radians_neg180] at h
    exact h.le
  have hb2 : radians p.lon < Real.pi := by
    have h := radians_lt_radians hlon₂
    rwa [radians_180] at h
  rw [fmod_lon_shift _ hb1 hb2, add_sub_cancel_right, degrees_radians]

theorem WGS84_f_lt_one : WGS84.f < 1 := by
  show (1 / 298.25722210088 : ℝ) < 1
  norm_num

theorem vincenty_lon180_wraps (az : ℝ) :
    vincenty_direct_solution 1 ⟨180, 0⟩ az 0 WGS84 = .ok ⟨-180, 0⟩ := by
  have h := vincenty_zero_dist_run 0 ⟨180, 0⟩ az WGS84 WGS84_f_lt_one
    (by norm_num) (by norm_num)
  rw [h]
  have harg : radians (180 : ℝ) + 3 * Real.pi = 4 * Real.pi := by
    rw [radians_180]; ring
  rw [show ((⟨180, 0⟩ : GeographicCoordinates).lon) = (180 : ℝ) from rfl,
    show ((⟨180, 0⟩ : GeographicCoordinates).lat) = (0 : ℝ) from rfl,
    harg, fmod_four_pi, zero_sub, degrees_neg_pi]

theorem vincenty_ok_shape {fuel : ℕ} {p : GeographicCoordinates}
    {az dist : ℝ} {e : Ellipsoid} {q : GeographicCoordinates}
    (h : vincenty_direct_solution fuel p az dist e = .ok q) :
    ∃ w Y Z, q = ⟨degrees (fmod w (2 * Real.pi) - Real.pi),
                  degrees (atan2 Y ((1 - e.f) * Real.sqrt Z))⟩ := by
  unfold vincenty_direct_solution at h
  dsimp only [] at h
  split at h
  · exact absurd h (by simp)
  · exact absurd h (by simp)
  · rename_i x sigma c2 ss cs hL
    injection h with h'
    exact ⟨_, _, _, h'.symm⟩

theorem vincenty_run_zero_dist (p : GeographicCoordinates) (az : ℝ)
    (hlon₁ : -180 < p.lon) (hlon₂ : p.lon < 180)
    (hlat₁ : -90 < p.lat) (hlat₂ : p.lat < 90) :
    vincenty_run p az 0 WGS84 = some p :=
  vincenty_run_eq_some (solveDirect_zero_distance 1 p az WGS84 (le_refl 1)
    WGS84_f_lt_one hlon₁ hlon₂ hlat₁ hlat₂)

/-! ### Helper lemmas about the samplers -/

theorem _central_int_angle_nonneg (azimuth_from azimuth_to : ℝ) :
    0 ≤ _central_int_angle azimuth_from azimuth_to :=
  Int.emod_nonneg _ (by norm_num)

theorem _central_int_angle_lt (azimuth_from azimuth_to : ℝ) :
    _central_int_angle azimuth_from azimuth_to < 360 :=
  Int.emod_lt_of_pos _ (by norm_num)

theorem central_angle_10_50 : _central_int_angle 10 50 = 40 := by
  unfold _central_int_angle
  norm_num

theorem radians_30 : radians 30 = Real.pi / 6 := by unfold radians; ring

theorem vincenty_b_az90_typeErr (fuel : ℕ) :
    vincenty_direct_solution fuel ⟨0, 0⟩ 90 6356752.3141 WGS84 = .typeErr := by
  unfold vincenty_direct_solution
  dsimp only []
  rw [radians_zero, radians_90]
  norm_num [WGS84, Real.tan_zero, Real.sin_pi_div_two, Real.cos_pi_div_two,
    Real.sqrt_one]
  rw [sigmaLoop_stable]

theorem vincenty_crash30_typeErr (fuel : ℕ) :
    vincenty_direct_solution fuel ⟨0, 0⟩ 30 crash_radius_30 WGS84 = .typeErr := by
  unfold vincenty_direct_solution crash_radius_30
  dsimp only []
  rw [radians_zero, radians_30]
  norm_num [WGS84, Real.tan_zero, Real.sin_pi_div_six, Real.sqrt_one]
  rw [sigmaLoop_stable]

theorem vincenty_run_b_az90_none :
    vincenty_run ⟨0, 0⟩ 90 6356752.3141 WGS84 = none :=
  vincenty_run_eq_none vincenty_b_az90_typeErr

theorem vincenty_run_crash30_none :
    vincenty_run ⟨0, 0⟩ 30 crash_radius_30 WGS84 = none :=
  vincenty_run_eq_none vincenty_crash30_typeErr

theorem circle_coords_b_none :
    _circle_coords ⟨0, 0⟩ 6356752.3141 = none := by
  unfold _circle_coords
  apply optList_eq_none
  rw [List.mem_map]
  refine ⟨90, by simp, ?_⟩
  rw [show ((90 : ℕ) : ℝ) = (90 : ℝ) by norm_num]
  exact vincenty_run_b_az90_none

theorem sigmaLoop_B_zero (s0 sigma1 : ℝ) (n : ℕ)
    (h : ¬ |s0 - 1| ≤ 1e-12) :
    sigmaLoop s0 0 sigma1 (n + 1) s0 1 none =
      .done s0 (some (Real.cos (2 * sigma1 + s0), Real.sin s0, Real.cos s0)) := by
  rw [sigmaLoop, if_neg h]
  dsimp only []
  simp only [zero_mul, add_zero]
  exact sigmaLoop_stable s0 0 sigma1 n s0 (some _)

theorem vincenty_az90_ok (d : ℝ)
    (hd : ¬ |d / 6356752.3141 - 1| ≤ 1e-12) :
    ∃ q, vincenty_direct_solution 1 ⟨0, 0⟩ 90 d WGS84 = .ok q := by
  unfold vincenty_direct_solution
  dsimp only []
  rw [radians_zero, radians_90]
  norm_num [WGS84, Real.tan_zero, Real.sin_pi_div_two, Real.cos_pi_div_two,
    Real.sqrt_one]
  rw [show (63567523141 / 10000 : ℝ) = 6356752.3141 by norm_num]
  rw [show (1 : ℕ) = 0 + 1 from rfl, sigmaLoop_B_zero _ _ 0 hd]
  exact ⟨_, rfl⟩

theorem arc_coords_zero (af at' : ℝ) :
    _arc_coords ⟨0, 0⟩ 0 af at' =
      some ((⟨0, 0⟩ :: (List.range' 1 ((_central_int_angle af at').toNat - 1)).map
        (fun _ => ⟨0, 0⟩)) ++ [⟨0, 0⟩]) := by
  have hrun : ∀ az : ℝ, vincenty_run ⟨0, 0⟩ az 0 WGS84 = some ⟨0, 0⟩ := fun az =>
    vincenty_run_zero_dist ⟨0, 0⟩ az (by norm_num) (by norm_num) (by norm_num)
      (by norm_num)
  unfold _arc_coords
  rw [hrun af, hrun at']
  dsimp only []
  rw [optList_map_some _ (fun _ => (⟨0, 0⟩ : GeographicCoordinates)) _
    (fun i _ => hrun _)]

theorem circle_coords_zero :
    _circle_coords ⟨0, 0⟩ 0 =
      some ((List.range 360).map fun _ => ⟨0, 0⟩) := by
  unfold _circle_coords
  exact optList_map_some _ _ _ fun i _ =>
    vincenty_run_zero_dist ⟨0, 0⟩ _ (by norm_num) (by norm_num) (by norm_num)
      (by norm_num)

theorem _arc_coords_spec {c : GeographicCoordinates} {r af at' : ℝ}
    {l : List GeographicCoordinates}
    (h : _arc_coords c r af at' = some l) :
    l.length = ((_central_int_angle af at').toNat - 1) + 2 ∧
    l[0]? = vincenty_run c af r WGS84 ∧
    l.getLast? = vincenty_run c at' r WGS84 ∧
    ∀ k : ℕ, k < (_central_int_angle af at').toNat - 1 →
      l[k + 1]? = vincenty_run c
        ((if ⌊af⌋ + ((k : ℤ) + 1) > 360 then ⌊af⌋ + ((k : ℤ) + 1) - 360
          else ⌊af⌋ + ((k : ℤ) + 1) : ℤ) : ℝ) r WGS84 := by
  unfold _arc_coords at h
  dsimp only [] at h
  split at h
  · split at h
    · rename_i x1 x2 b0 e0 hbeq heeq x3 interior hoeq
      injection h with h'
      subst h'
      have hilen : interior.length = (_central_int_angle af at').toNat - 1 := by
        rw [optList_length hoeq, List.length_map, List.length_range']
      refine ⟨?_, ?_, ?_, ?_⟩
      · simp only [List.length_append, List.length_cons, List.length_nil, hilen]
      · rw [List.cons_append, hbeq]
        exact List.getElem?_cons_zero
      · rw [List.getLast?_concat, heeq]
      · intro k hk
        have hk' : k < interior.length := by omega
        have hmk : ((b0 :: interior) ++ [e0])[k + 1]? = interior[k]? := by
          rw [List.cons_append, List.getElem?_cons_succ, List.getElem?_append,
            if_pos hk']
        rw [hmk]
        have hk'' : k < (_central_int_angle af at').toNat - 1 := hk
        have hmap := List.getElem?_range' 1 1 hk''
        have hidx := optList_getElem hoeq k _
          (by rw [List.getElem?_map, hmap]; rfl)
        rw [hidx]
        have hone : (1 + 1 * k : ℕ) = k + 1 := by omega
        rw [hone]
        dsimp only []
        have hcast : ((k + 1 : ℕ) : ℤ) = (k : ℤ) + 1 := by push_cast; ring
        rw [hcast]
    · exact absurd h (by simp)
  · exact absurd h (by simp)

/-! ### Claim C1 -/

/-- Claim C1 (the code contradicts it): on an input whose initial
`sigma = distance / (b * A)` equals the initial `sigmap = 1` to within
the `1e-12` tolerance, the `while` loop of `vincenty_direct_solution`
never executes its body, so `cos2sigma_m`, `sin_sigma` and `cos_sigma`
are still `None` and the line `sin_u1 * sin_sigma` raises a `TypeError`:
the solver neither terminates with a result nor raises any
convergence-failure error, whatever the iteration budget.  Witnessing
input: start `(0, 0)`, azimuth `90`, distance `1` on the ellipsoid
`(a, b, f) = (2, 1, 1/2)` (then `cos²α = 0`, so `A = 1` and
`distance / (b * A) = 1`). -/
theorem vincenty_converged_input_type_error (fuel : ℕ) :
    vincenty_direct_solution fuel ⟨0, 0⟩ 90 1 ⟨2, 1, 1 / 2⟩ = .typeErr := by
  unfold vincenty_direct_solution
  dsimp only []
  rw [radians_zero, radians_90]
  norm_num [Real.tan_zero, Real.sin_pi_div_two, Real.cos_pi_div_two, Real.sqrt_one]
  rw [sigmaLoop_stable]

/-! ### Claim C2 -/

/-- Claim C2, counterexample: the start point `(180, 0)` is valid
(longitude in `(-180, 180]`), yet `solveDirect` with azimuth `0` and
distance `0` returns longitude `-180`, which is outside the claimed
output range `(-180, 180]`. -/
theorem solveDirect_lon180_out_of_claimed_range :
    (180 : ℝ) ∈ Set.Ioc (-180 : ℝ) 180 ∧
    vincenty_direct_solution 1 ⟨180, 0⟩ 0 0 WGS84 = .ok ⟨-180, 0⟩ ∧
    (-180 : ℝ) ∉ Set.Ioc (-180 : ℝ) 180 := by
  refine ⟨⟨by norm_num, by norm_num⟩, vincenty_lon180_wraps 0, by simp⟩

/-- Claim C2 as amended: whenever `vincenty_direct_solution` returns a
point (any start point, azimuth, distance, and any ellipsoid with
flattening at most 1), the longitude is in `[-180, 180)` — the
half-open interval is on this side because Python's `%` yields a value
in `[0, 2π)` — and the latitude is in `[-90, 90]`. -/
theorem solveDirect_output_ranges {fuel : ℕ} {p : GeographicCoordinates}
    {az dist : ℝ} {e : Ellipsoid} {q : GeographicCoordinates}
    (hf : e.f ≤ 1)
    (h : vincenty_direct_solution fuel p az dist e = .ok q) :
    (-180 ≤ q.lon ∧ q.lon < 180) ∧ -90 ≤ q.lat ∧ q.lat ≤ 90 := by
  obtain ⟨w, Y, Z, rfl⟩ := vincenty_ok_shape h
  have hπ := Real.pi_pos
  refine ⟨⟨?_, ?_⟩, ?_, ?_⟩
  · obtain ⟨hm0, _⟩ := fmod_bounds w (2 * Real.pi) (by positivity)
    unfold degrees
    rw [le_div_iff₀ hπ]
    nlinarith
  · obtain ⟨_, hm1⟩ := fmod_bounds w (2 * Real.pi) (by positivity)
    unfold degrees
    rw [div_lt_iff₀ hπ]
    nlinarith
  · have hx : 0 ≤ (1 - e.f) * Real.sqrt Z :=
      mul_nonneg (by linarith) (Real.sqrt_nonneg Z)
    obtain ⟨ha1, _⟩ := atan2_nonneg_x_bounds Y hx
    unfold degrees
    rw [le_div_iff₀ hπ]
    nlinarith
  · have hx : 0 ≤ (1 - e.f) * Real.sqrt Z :=
      mul_nonneg (by linarith) (Real.sqrt_nonneg Z)
    obtain ⟨_, ha2⟩ := atan2_nonneg_x_bounds Y hx
    unfold degrees
    rw [div_le_iff₀ hπ]
    nlinarith

/-- Witness for `solveDirect_output_ranges`: at the concrete input
`(0, 0)`, azimuth `0`, distance `0` on WGS84 the solver returns `(0, 0)`
and the bounds hold. -/
theorem solveDirect_output_ranges_witness :
    vincenty_direct_solution 1 ⟨0, 0⟩ 0 0 WGS84 = .ok ⟨0, 0⟩ ∧
    WGS84.f ≤ 1 ∧
    ((-180 ≤ (0 : ℝ) ∧ (0 : ℝ) < 180) ∧ -90 ≤ (0 : ℝ) ∧ (0 : ℝ) ≤ 90) := by
  have hok : vincenty_direct_solution 1 ⟨0, 0⟩ 0 0 WGS84 = .ok ⟨0, 0⟩ :=
    solveDirect_zero_distance 1 ⟨0, 0⟩ 0 WGS84 (le_refl 1) WGS84_f_lt_one
      (by norm_num) (by norm_num) (by norm_num) (by norm_num)
  exact ⟨hok, WGS84_f_lt_one.le, solveDirect_output_ranges WGS84_f_lt_one.le hok⟩

/-! ### Claim C3 -/

/-- Claim C3, counterexample: at the valid start point `(180, 0)` the
zero-distance call returns `(-180, 0)`, which is a different
`GeographicCoordinates` value, so the zero-distance identity fails at
longitude 180. -/
theorem solveDirect_zero_distance_lon180_flips :
    vincenty_direct_solution 1 ⟨180, 0⟩ 5 0 WGS84 = .ok ⟨-180, 0⟩ ∧
    (⟨-180, 0⟩ : GeographicCoordinates) ≠ ⟨180, 0⟩ := by
  refine ⟨vincenty_lon180_wraps 5, fun h => ?_⟩
  have h' := congrArg GeographicCoordinates.lon h
  norm_num at h'

/-- Claim C3 as amended: the zero-distance identity
`solveDirect(p, azimuth, 0) = p` holds for every azimuth, every
ellipsoid with flattening less than 1, and every start point whose
longitude lies strictly inside `(-180, 180)` and whose latitude lies
strictly inside `(-90, 90)` (at longitude exactly 180 the solver
returns longitude `-180` instead). -/
theorem solveDirect_zero_distance_identity (fuel : ℕ)
    (p : GeographicCoordinates) (az : ℝ) (e : Ellipsoid)
    (hfuel : 1 ≤ fuel) (hf : e.f < 1)
    (hlon₁ : -180 < p.lon) (hlon₂ : p.lon < 180)
    (hlat₁ : -90 < p.lat) (hlat₂ : p.lat < 90) :
    vincenty_direct_solution fuel p az 0 e = .ok p :=
  solveDirect_zero_distance fuel p az e hfuel hf hlon₁ hlon₂ hlat₁ hlat₂

/-- Witness for `solveDirect_zero_distance_identity` at the concrete
input `(0, 0)`, azimuth `7`, WGS84. -/
theorem solveDirect_zero_distance_identity_witness :
    WGS84.f < 1 ∧
    vincenty_direct_solution 1 ⟨0, 0⟩ 7 0 WGS84 = .ok ⟨0, 0⟩ :=
  ⟨WGS84_f_lt_one,
   solveDirect_zero_distance_identity 1 ⟨0, 0⟩ 7 WGS84 (le_refl 1)
     WGS84_f_lt_one (by norm_num) (by norm_num) (by norm_num) (by norm_num)⟩

theorem arc_b_90_91_none :
    _arc_coords ⟨0, 0⟩ 6356752.3141 90 91 = none := by
  unfold _arc_coords
  rw [vincenty_run_b_az90_none]

/-! ### Claim C4 -/

/-- Claim C4, counterexample: at radius 0 (where every solver call
provably returns) the 10 → 50 arc has 41 points while the central angle
is 40 — i.e. 39 interior points, not the `centralAngle = 40` interior
points (42 points in total) that the claim asserts. -/
theorem sampleArc_interior_count_mismatch :
    ∃ l, _arc_coords ⟨0, 0⟩ 0 10 50 = some l ∧ l.length = 41 ∧
      _central_int_angle 10 50 = 40 ∧ (41 : ℕ) ≠ 40 + 2 := by
  refine ⟨_, arc_coords_zero 10 50, ?_, central_angle_10_50, by norm_num⟩
  simp only [List.length_append, List.length_cons, List.length_map,
    List.length_range', List.length_nil, central_angle_10_50]
  omega

/-- Claim C4 as amended: whenever `_arc_coords` returns a list at all —
it does not when a sampled azimuth makes the solver crash, see the
C5/C10 counterexamples — the list is the endpoint sample at
`azimuth_from`, then `max(centralAngle − 1, 0)` interior points (one
less than the claimed `centralAngle`: the source loop is
`for i in range(1, angle)`), then the endpoint sample at `azimuth_to`;
the interior azimuth at interior index `k` is
`floor(azimuth_from) + k + 1`, reduced by 360 exactly when it is
strictly greater than 360. -/
theorem sampleArc_structure_amended {c : GeographicCoordinates}
    {r af at' : ℝ} {l : List GeographicCoordinates}
    (h : _arc_coords c r af at' = some l) :
    l.length = ((_central_int_angle af at').toNat - 1) + 2 ∧
    l[0]? = vincenty_run c af r WGS84 ∧
    l.getLast? = vincenty_run c at' r WGS84 ∧
    ∀ k : ℕ, k < (_central_int_angle af at').toNat - 1 →
      l[k + 1]? = vincenty_run c
        ((if ⌊af⌋ + ((k : ℤ) + 1) > 360 then ⌊af⌋ + ((k : ℤ) + 1) - 360
          else ⌊af⌋ + ((k : ℤ) + 1) : ℤ) : ℝ) r WGS84 :=
  _arc_coords_spec h

/-- Witness for `sampleArc_structure_amended`: radius 0, azimuths
20 → 25 (central angle 5), interior index `k = 2` at list index 3,
sampling azimuth `⌊20⌋ + 3 = 23`. -/
theorem sampleArc_structure_amended_witness :
    ∃ l, _arc_coords ⟨0, 0⟩ 0 20 25 = some l ∧ l.length = 6 ∧
      l[3]? = vincenty_run ⟨0, 0⟩ ((23 : ℤ) : ℝ) 0 WGS84 := by
  have harc := arc_coords_zero 20 25
  have hang : _central_int_angle 20 25 = 5 := by
    unfold _central_int_angle
    norm_num
  obtain ⟨hlen, _, _, hint⟩ := sampleArc_structure_amended harc
  refine ⟨_, harc, ?_, ?_⟩
  · rw [hlen, hang]
    omega
  · have h := hint 2 (by rw [hang]; omega)
    rw [h]
    have hfloor : ⌊(20 : ℝ)⌋ = 20 := by norm_num
    rw [hfloor]
    norm_num

/-! ### Claim C5 -/

/-- Claim C5, counterexample: at `crash_radius_30` the azimuth-30
interior sample of the 10 → 50 arc raises the solver's
uninitialised-loop-variables TypeError, so `_arc_coords` returns no
list at all instead of the claimed 41 points. -/
theorem sampleArc_10_50_crash :
    _arc_coords ⟨0, 0⟩ crash_radius_30 10 50 = none := by
  unfold _arc_coords
  dsimp only []
  have hnone : optList ((List.range' 1 ((_central_int_angle 10 50).toNat - 1)).map
      (fun (i : ℕ) => vincenty_run ⟨0, 0⟩
        ((if ⌊(10 : ℝ)⌋ + (i : ℤ) > 360 then ⌊(10 : ℝ)⌋ + (i : ℤ) - 360
          else ⌊(10 : ℝ)⌋ + (i : ℤ) : ℤ) : ℝ) crash_radius_30 WGS84)) = none := by
    apply optList_eq_none
    refine List.mem_map.mpr ⟨20, ?_, ?_⟩
    · rw [central_angle_10_50]
      exact List.mem_range'_1.mpr (by omega)
    · norm_num
      exact vincenty_run_crash30_none
  rcases hb : vincenty_run ⟨0, 0⟩ 10 crash_radius_30 WGS84 with _ | b0 <;>
  rcases he : vincenty_run ⟨0, 0⟩ 50 crash_radius_30 WGS84 with _ | e0
  · rfl
  · rfl
  · rfl
  rw [hnone]

/-- Claim C5 as amended: whenever `sampleArc(center, r, 10, 50)` returns
a list (it does not at `crash_radius_30`), the list has exactly 41
points, the first at azimuth 10, the last at azimuth 50, and the 39
interior points at integer azimuths 11 … 49 in order. -/
theorem sampleArc_10_50_spec {c : GeographicCoordinates} {r : ℝ}
    {l : List GeographicCoordinates}
    (h : _arc_coords c r 10 50 = some l) :
    l.length = 41 ∧
    l[0]? = vincenty_run c 10 r WGS84 ∧
    l[40]? = vincenty_run c 50 r WGS84 ∧
    ∀ k : ℕ, k < 39 →
      l[k + 1]? = vincenty_run c ((11 + k : ℕ) : ℝ) r WGS84 := by
  obtain ⟨hlen, h0, hlast, hint⟩ := _arc_coords_spec h
  rw [central_angle_10_50] at hlen hint
  norm_num at hint
  refine ⟨by omega, h0, ?_, ?_⟩
  · rw [show (40 : ℕ) = l.length - 1 by omega, ← List.getLast?_eq_getElem?]
    exact hlast
  · intro k hk
    have h2 := hint k (by omega)
    rw [h2]
    have hkr : (k : ℝ) ≤ 38 := by exact_mod_cast Nat.lt_succ_iff.mp hk
    rw [if_neg (by linarith),
      show (10 : ℝ) + ((k : ℝ) + 1) = ((11 + k : ℕ) : ℝ) by push_cast; ring]

/-- Witness for `sampleArc_10_50_spec`: radius 0, interior index
`k = 5` (azimuth 16) at list index 6. -/
theorem sampleArc_10_50_spec_witness :
    ∃ l, _arc_coords ⟨0, 0⟩ 0 10 50 = some l ∧ l.length = 41 ∧
      l[6]? = vincenty_run ⟨0, 0⟩ ((11 + 5 : ℕ) : ℝ) 0 WGS84 := by
  have harc := arc_coords_zero 10 50
  obtain ⟨hlen, _, _, hint⟩ := sampleArc_10_50_spec harc
  exact ⟨_, harc, hlen, hint 5 (by norm_num)⟩

/-! ### Claim C6 -/

/-- Claim C6, counterexample: at radius 6356752.3141 — which is the
WGS84 semi-minor axis `b`, so at azimuth 90 the initial σ equals the
initial σp within tolerance — the azimuth-90 solver call raises
TypeError and `sampleCircle` returns no list at all, refuting "returns
exactly 360 points" for every radius. -/
theorem sampleCircle_crash_at_b :
    (6356752.3141 : ℝ) = WGS84.b ∧
    _circle_coords ⟨0, 0⟩ 6356752.3141 = none :=
  ⟨rfl, circle_coords_b_none⟩

/-- Claim C6 as amended: whenever `sampleCircle` returns a list (it
does not at radius `b`), the list has exactly 360 points and the point
at every index `i < 360` is the solver output at azimuth `i`; no
duplicate closing vertex follows the azimuth-359 point. -/
theorem sampleCircle_spec {c : GeographicCoordinates} {r : ℝ}
    {l : List GeographicCoordinates} (h : _circle_coords c r = some l) :
    l.length = 360 ∧
    ∀ i : ℕ, i < 360 → l[i]? = vincenty_run c (i : ℝ) r WGS84 := by
  unfold _circle_coords at h
  constructor
  · rw [optList_length h, List.length_map, List.length_range]
  · intro i hi
    refine optList_getElem h i _ ?_
    rw [List.getElem?_map, List.getElem?_range hi]
    rfl

/-- Witness for `sampleCircle_spec`: the radius-0 circle returns and
satisfies the bounds at index 3. -/
theorem sampleCircle_spec_witness :
    ∃ l, _circle_coords ⟨0, 0⟩ 0 = some l ∧ l.length = 360 ∧
      l[3]? = vincenty_run ⟨0, 0⟩ ((3 : ℕ) : ℝ) 0 WGS84 := by
  have hc := circle_coords_zero
  obtain ⟨hlen, hget⟩ := sampleCircle_spec hc
  exact ⟨_, hc, hlen, hget 3 (by norm_num)⟩

/-! ### Claim C7 -/

/-- Claim C7, counterexample: with inner radius b/2 strictly below the
outer radius b = 6356752.3141 the guard passes, but the outer-circle
sampling hits the azimuth-90 TypeError, so `ring` propagates the solver
crash instead of returning a polygon — "raises nothing when
innerRadius < outerRadius" is false of the code. -/
theorem ring_valid_radii_crash :
    (6356752.3141 / 2 : ℝ) < 6356752.3141 ∧
    ring ⟨0, 0⟩ (6356752.3141 / 2) 6356752.3141 = .error .solverCrash := by
  refine ⟨by norm_num, ?_⟩
  unfold ring
  rw [if_neg (by norm_num), circle_coords_b_none]
  rcases hi : _circle_coords ⟨0, 0⟩ (6356752.3141 / 2) with _ | li <;> rfl

/-- Claim C7 as amended: `ring` and `ring_sector` fail with the
invalid-radius error exactly when `inner_radius ≥ outer_radius` (the
guard runs before any sampling); when `inner_radius < outer_radius`
neither ever raises the invalid-radius error — each returns a polygon
boundary unless the sampling itself does not return, in which case the
solver's crash propagates (as at outer radius b). -/
theorem radius_ordering_guard (c : GeographicCoordinates)
    (ir or' af at' : ℝ) :
    ((ring c ir or' = .error .invalidRadiusOrdering) ↔ or' ≤ ir) ∧
    ((ring_sector c ir or' af at' = .error .invalidRadiusOrdering) ↔ or' ≤ ir) ∧
    (ir < or' →
      ((∃ poly, ring c ir or' = .ok poly) ∨
        ring c ir or' = .error .solverCrash) ∧
      ((∃ poly, ring_sector c ir or' af at' = .ok poly) ∨
        ring_sector c ir or' af at' = .error .solverCrash)) := by
  unfold ring ring_sector
  by_cases h : ir ≥ or'
  · rw [if_pos h, if_pos h]
    exact ⟨by simp [h], by simp [h], fun h' => absurd h' (by simpa using h)⟩
  · rw [if_neg h, if_neg h]
    refine ⟨?_, ?_, fun h' => ⟨?_, ?_⟩⟩
    · constructor
      · intro he
        exfalso
        rcases h1 : _circle_coords c ir with _ | li <;>
        rcases h2 : _circle_coords c or' with _ | lo <;>
        simp [h1, h2] at he
      · intro hle
        exact absurd hle h
    · constructor
      · intro he
        exfalso
        rcases h1 : _arc_coords c or' af at' with _ | lo <;>
        rcases h2 : _arc_coords c ir af at' with _ | li <;>
        simp [h1, h2] at he
      · intro hle
        exact absurd hle h
    · rcases h1 : _circle_coords c ir with _ | li <;>
      rcases h2 : _circle_coords c or' with _ | lo
      · exact Or.inr rfl
      · exact Or.inr rfl
      · exact Or.inr rfl
      · exact Or.inl ⟨_, rfl⟩
    · rcases h1 : _arc_coords c or' af at' with _ | lo <;>
      rcases h2 : _arc_coords c ir af at' with _ | li
      · exact Or.inr rfl
      · exact Or.inr rfl
      · exact Or.inr rfl
      · exact Or.inl ⟨_, rfl⟩

/-- Witness for `radius_ordering_guard`: `ring(c, 1000, 500)` fails with
the invalid-radius error, and with the radii in the order 500 < 1000 the
guard clears. -/
theorem radius_ordering_guard_witness :
    ring ⟨0, 0⟩ 1000 500 = .error .invalidRadiusOrdering ∧
    ((∃ poly, ring ⟨0, 0⟩ 500 1000 = .ok poly) ∨
      ring ⟨0, 0⟩ 500 1000 = .error .solverCrash) :=
  ⟨(radius_ordering_guard ⟨0, 0⟩ 1000 500 0 0).1.mpr (by norm_num),
   ((radius_ordering_guard ⟨0, 0⟩ 500 1000 0 0).2.2 (by norm_num)).1⟩

/-! ### Claim C8 -/

/-- Claim C8, counterexample: the radii 1 < b = 6356752.3141 pass the
guard, but the outer arc from azimuth 90 to 91 begins with the
azimuth-90 sample at radius b, which raises TypeError; `ring_sector`
therefore propagates the crash and returns no boundary at all. -/
theorem ring_sector_valid_radii_crash :
    (1 : ℝ) < 6356752.3141 ∧
    ring_sector ⟨0, 0⟩ 1 6356752.3141 90 91 = .error .solverCrash := by
  refine ⟨by norm_num, ?_⟩
  unfold ring_sector
  rw [if_neg (by norm_num), arc_b_90_91_none]

/-- Claim C8 as amended: when `inner_radius < outer_radius` and both arc
samplings return, the boundary returned by `ring_sector` is the outer
arc concatenated with the reverse of the inner arc, as a single ring
with an empty hole list, and the two arcs have the same point count;
when a sampling does not return, neither does `ring_sector`. -/
theorem ring_sector_boundary (c : GeographicCoordinates)
    (ir or' af at' : ℝ) {oarc iarc : List GeographicCoordinates}
    (h : ir < or')
    (ho : _arc_coords c or' af at' = some oarc)
    (hi : _arc_coords c ir af at' = some iarc) :
    ring_sector c ir or' af at' = .ok ⟨oarc ++ iarc.reverse, []⟩ ∧
    oarc.length = iarc.length := by
  constructor
  · unfold ring_sector
    rw [if_neg (not_le.mpr h), ho, hi]
  · rw [(_arc_coords_spec ho).1, (_arc_coords_spec hi).1]

/-- Witness for `ring_sector_boundary`: the degenerate 90 → 90 arc
samples only azimuth 90, where the series coefficient `B` vanishes, so
the solver provably converges at radii 1 and 2 and the sector boundary
is assembled from the two two-point arcs. -/
theorem ring_sector_boundary_witness :
    ∃ oarc iarc, _arc_coords ⟨0, 0⟩ 2 90 90 = some oarc ∧
      _arc_coords ⟨0, 0⟩ 1 90 90 = some iarc ∧
      ring_sector ⟨0, 0⟩ 1 2 90 90 = .ok ⟨oarc ++ iarc.reverse, []⟩ ∧
      oarc.length = iarc.length := by
  have harc : ∀ d : ℝ, ¬ |d / 6356752.3141 - 1| ≤ 1e-12 →
      ∃ q, _arc_coords ⟨0, 0⟩ d 90 90 = some ((q :: []) ++ [q]) := by
    intro d hd
    obtain ⟨q, hq⟩ := vincenty_az90_ok d hd
    have hrun := vincenty_run_eq_some hq
    refine ⟨q, ?_⟩
    unfold _arc_coords
    rw [hrun]
    have hang : _central_int_angle 90 90 = 0 := by
      unfold _central_int_angle
      norm_num
    rw [hang]
    rfl
  obtain ⟨q2, h2⟩ := harc 2 (by intro hle; rw [abs_le] at hle; norm_num at hle)
  obtain ⟨q1, h1⟩ := harc 1 (by intro hle; rw [abs_le] at hle; norm_num at hle)
  obtain ⟨hok, hlen⟩ := ring_sector_boundary ⟨0, 0⟩ 1 2 90 90 (by norm_num) h2 h1
  exact ⟨_, _, h2, h1, hok, hlen⟩

/-! ### Claim C9 -/

/-- Claim C9, counterexample: at radius 0 the sampling returns (every
solver call yields the center back), and the resulting sector boundary
has the center at its first position and again right after it — the
center does not occur exactly once. -/
theorem circular_sector_center_duplicated :
    ∃ poly, circular_sector ⟨0, 0⟩ 0 10 50 = some poly ∧
      poly.shell.head? = some ⟨0, 0⟩ ∧
      (⟨0, 0⟩ : GeographicCoordinates) ∈ poly.shell.tail := by
  have harc := arc_coords_zero 10 50
  refine ⟨⟨⟨0, 0⟩ :: ((⟨0, 0⟩ :: (List.range' 1 ((_central_int_angle 10 50).toNat - 1)).map
    (fun _ => ⟨0, 0⟩)) ++ [⟨0, 0⟩]), []⟩, ?_, rfl, ?_⟩
  · unfold circular_sector
    rw [harc]
  · exact List.mem_append_left _ (List.mem_cons_self _ _)

/-- Claim C9 as amended: whenever the arc sampling returns, the boundary
of `circular_sector` is `[center]` followed by the sampled arc, with no
hole, and the center is the first vertex; it need not occur exactly
once, since arc sample points can coincide with the center (radius 0
duplicates it). -/
theorem circular_sector_boundary {c : GeographicCoordinates}
    {r af at' : ℝ} {arc : List GeographicCoordinates}
    (h : _arc_coords c r af at' = some arc) :
    circular_sector c r af at' = some ⟨c :: arc, []⟩ ∧
    (c :: arc).head? = some c := by
  constructor
  · unfold circular_sector
    rw [h]
  · rfl

/-- Witness for `circular_sector_boundary`: radius 0, azimuths
40 → 45. -/
theorem circular_sector_boundary_witness :
    ∃ arc, _arc_coords ⟨0, 0⟩ 0 40 45 = some arc ∧
      circular_sector ⟨0, 0⟩ 0 40 45 = some ⟨⟨0, 0⟩ :: arc, []⟩ ∧
      ((⟨0, 0⟩ : GeographicCoordinates) :: arc).head? = some ⟨0, 0⟩ := by
  have harc := arc_coords_zero 40 45
  obtain ⟨h1, h2⟩ := circular_sector_boundary harc
  exact ⟨_, harc, h1, h2⟩

/-! ### Claim C10 -/

/-- Claim C10, counterexample: at radius 6356752.3141 (the WGS84
semi-minor axis) the arc from azimuth 90 to 91 raises TypeError on its
very first solver call, so `sampleArc` returns no points at all rather
than between 2 and 360 of them. -/
theorem sampleArc_crash_at_b :
    (6356752.3141 : ℝ) = WGS84.b ∧
    _arc_coords ⟨0, 0⟩ 6356752.3141 90 91 = none :=
  ⟨rfl, arc_b_90_91_none⟩

/-- Claim C10 as amended: whenever `sampleArc` returns a list (it does
not at crash radii), the list has between 2 and 360 points, its first
element is the solver output at `azimuth_from` and its last the solver
output at `azimuth_to`, and when the two azimuths are equal it is
exactly the 2 endpoint samples. -/
theorem sampleArc_endpoints_and_count_bounds {c : GeographicCoordinates}
    {r af at' : ℝ} {l : List GeographicCoordinates}
    (h : _arc_coords c r af at' = some l) :
    2 ≤ l.length ∧ l.length ≤ 360 ∧
    l.head? = vincenty_run c af r WGS84 ∧
    l.getLast? = vincenty_run c at' r WGS84 ∧
    (af = at' → l.length = 2) := by
  obtain ⟨hlen, h0, hlast, _⟩ := _arc_coords_spec h
  have hn0 := _central_int_angle_nonneg af at'
  have hn1 := _central_int_angle_lt af at'
  refine ⟨by omega, by omega, ?_, hlast, ?_⟩
  · rw [List.head?_eq_getElem?]
    exact h0
  · intro heq
    subst heq
    rw [hlen]
    have hfl := Int.floor_le_ceil af
    have hcl := Int.ceil_le_floor_add_one af
    have hself : _central_int_angle af af = ⌈af⌉ - ⌊af⌋ := by
      unfold _central_int_angle
      exact Int.emod_eq_of_lt (by omega) (by omega)
    omega

/-- Witness for `sampleArc_endpoints_and_count_bounds`: the degenerate
radius-0 arc from azimuth 33 to azimuth 33 returns exactly 2 points. -/
theorem sampleArc_endpoints_and_count_bounds_witness :
    ∃ l, _arc_coords ⟨0, 0⟩ 0 33 33 = some l ∧ 2 ≤ l.length ∧
      l.length = 2 := by
  have harc := arc_coords_zero 33 33
  obtain ⟨h2, _, _, _, heq⟩ := sampleArc_endpoints_and_count_bounds harc
  exact ⟨_, harc, h2, heq rfl⟩

end GisMisc
